import Mathlib

/-!
Shallow embedding of the device association index of libosinfo
(src/osinfo/osinfo_os.c) and verification of its specification.

A GObject argument such as an OsinfoPlatform pointer can be NULL, a
non-NULL pointer to an object of the wrong type, or a valid reference.
The GArg type models these three cases; the G_TYPE check macros used by
g_return_val_if_fail map to GArg.isValid, and a check of the form
(bang)p or OSINFO_IS_X(p) maps to GArg.isNullOrValid.
-/

inductive GArg (α : Type) where
  | null : GArg α
  | invalid : GArg α
  | valid : α → GArg α

def GArg.isValid {α : Type} : GArg α → Bool
  | .valid _ => true
  | _ => false

def GArg.isNullOrValid {α : Type} : GArg α → Bool
  | .null => true
  | .valid _ => true
  | .invalid => false

/-- A device entity; only its identity matters to this core. -/
structure Device where
  devId : Nat
deriving DecidableEq, Repr

/-- A platform entity; the index uses only its identifier string
(osinfo_entity_get_id). -/
structure Platform where
  plId : String
deriving DecidableEq, Repr

/-- An association (OsinfoDeviceLink) pairing the OS with a target device.
The linkId field models the identity of the object allocated by
osinfo_devicelink_new: each call to osinfo_os_add_device creates a fresh
one, so two links created by different calls are distinct. -/
structure DeviceLink where
  linkId : Nat
  target : Device
deriving DecidableEq, Repr

/-- An entity a filter can be evaluated against: osinfo_filter_matches is
applied to OSINFO_ENTITY(dev) by get_devices and the preferred queries,
and to OSINFO_ENTITY(link) by get_device_links. -/
inductive Entity where
  | dev : Device → Entity
  | link : DeviceLink → Entity

/-- A filter (OsinfoFilter) is modelled by its observable behaviour:
the boolean osinfo_filter_matches returns on each entity. -/
def OsinfoFilter := Entity → Bool

/-- The private state of an OsinfoOs: the default list of device links and
the platforms hash table (string platform id to list of device links),
plus the allocation counter backing DeviceLink.linkId. -/
structure OsState where
  deviceLinks : List DeviceLink
  platforms : List (String × List DeviceLink)
  nextLinkId : Nat
deriving DecidableEq, Repr

/-- g_hash_table_lookup on the platforms table: first binding of the key,
none when the key is absent (the C code receives NULL in that case). -/
def htLookup : List (String × List DeviceLink) → String → Option (List DeviceLink)
  | [], _ => none
  | (k, v) :: rest, key => if k = key then some v else htLookup rest key

/-- g_hash_table_steal: remove the first binding of the key, keep the rest. -/
def htRemove : List (String × List DeviceLink) → String → List (String × List DeviceLink)
  | [], _ => []
  | (k, v) :: rest, key => if k = key then rest else (k, v) :: htRemove rest key

/-- g_hash_table_insert: replace the first binding of the key, or add a new
binding when the key is absent. -/
def htInsert (m : List (String × List DeviceLink)) (key : String) (v : List DeviceLink) :
    List (String × List DeviceLink) :=
  match m with
  | [] => [(key, v)]
  | (k, w) :: rest => if k = key then (key, v) :: rest else (k, w) :: htInsert rest key v

/-- osinfo_os_init: the index starts with an empty default list and an
empty platforms table. -/
def emptyOs : OsState :=
  { deviceLinks := [], platforms := [], nextLinkId := 0 }

/-- The evaluation (bang)filter || osinfo_filter_matches(filter, e) used in
every query loop: a NULL filter lets every entity pass. The invalid case
is unreachable behind the precondition checks of every caller. -/
def filterPasses (filter : GArg OsinfoFilter) (e : Entity) : Bool :=
  match filter with
  | .null => true
  | .invalid => true
  | .valid f => f e

/-- The source list each query walks: the platforms table entry for the
given platform when one is supplied (absent key gives NULL, i.e. the empty
list), else the default deviceLinks list. -/
def selectSeq (st : OsState) (platform : GArg Platform) : List DeviceLink :=
  match platform with
  | .valid p => (htLookup st.platforms p.plId).getD []
  | _ => st.deviceLinks

/-- The while loop of osinfo_os_get_preferred_device_link: return the first
link whose target device passes the filter. -/
def prefLoop (filter : GArg OsinfoFilter) : List DeviceLink → Option DeviceLink
  | [] => none
  | l :: rest =>
      if filterPasses filter (Entity.dev l.target) then some l
      else prefLoop filter rest

/-- osinfo_os_get_preferred_device_link. Note the precondition on filter is
OSINFO_IS_FILTER(filter), with no NULL escape, unlike the list queries. -/
def osinfo_os_get_preferred_device_link (os : GArg OsState) (platform : GArg Platform)
    (filter : GArg OsinfoFilter) : Option DeviceLink :=
  match os with
  | .valid st =>
      if platform.isNullOrValid && filter.isValid then
        prefLoop filter (selectSeq st platform)
      else none
  | _ => none

/-- osinfo_os_get_preferred_device: target of the preferred link, or NULL. -/
def osinfo_os_get_preferred_device (os : GArg OsState) (platform : GArg Platform)
    (filter : GArg OsinfoFilter) : Option Device :=
  match os with
  | .valid _ =>
      if platform.isNullOrValid && filter.isValid then
        match osinfo_os_get_preferred_device_link os platform filter with
        | some l => some l.target
        | none => none
      else none
  | _ => none

/-- The while loop of osinfo_os_get_devices: collect the target device of
every link whose target passes the filter, in list order. -/
def devicesLoop (filter : GArg OsinfoFilter) : List DeviceLink → List Device
  | [] => []
  | l :: rest =>
      if filterPasses filter (Entity.dev l.target) then
        l.target :: devicesLoop filter rest
      else devicesLoop filter rest

/-- osinfo_os_get_devices: none models the NULL returned on a precondition
failure, some the newly allocated (possibly empty) OsinfoDeviceList. -/
def osinfo_os_get_devices (os : GArg OsState) (platform : GArg Platform)
    (filter : GArg OsinfoFilter) : Option (List Device) :=
  match os with
  | .valid st =>
      if platform.isNullOrValid && filter.isNullOrValid then
        some (devicesLoop filter (selectSeq st platform))
      else none
  | _ => none

/-- The while loop of osinfo_os_get_device_links: collect every link that
itself passes the filter (the filter is applied to the link entity, not to
its target device), in list order. -/
def linksLoop (filter : GArg OsinfoFilter) : List DeviceLink → List DeviceLink
  | [] => []
  | l :: rest =>
      if filterPasses filter (Entity.link l) then
        l :: linksLoop filter rest
      else linksLoop filter rest

/-- osinfo_os_get_device_links. -/
def osinfo_os_get_device_links (os : GArg OsState) (platform : GArg Platform)
    (filter : GArg OsinfoFilter) : Option (List DeviceLink) :=
  match os with
  | .valid st =>
      if platform.isNullOrValid && filter.isNullOrValid then
        some (linksLoop filter (selectSeq st platform))
      else none
  | _ => none

/-- osinfo_os_add_device: create a fresh link wrapping the device and append
it to the default list, or, when a platform is given, to that platform entry
of the table, via the lookup_extended / steal / g_list_append / insert
sequence of the C code. Returns the new link and the updated state; on a
precondition failure it returns NULL and the untouched input. -/
def osinfo_os_add_device (os : GArg OsState) (platform : GArg Platform)
    (dev : GArg Device) : Option DeviceLink × GArg OsState :=
  match os, platform, dev with
  | .valid st, .null, .valid d =>
      let l : DeviceLink := { linkId := st.nextLinkId, target := d }
      (some l, .valid { st with deviceLinks := st.deviceLinks ++ [l],
                                nextLinkId := st.nextLinkId + 1 })
  | .valid st, .valid p, .valid d =>
      let l : DeviceLink := { linkId := st.nextLinkId, target := d }
      let orig := (htLookup st.platforms p.plId).getD []
      (some l, .valid { st with
                          platforms := htInsert (htRemove st.platforms p.plId) p.plId
                            (orig ++ [l]),
                          nextLinkId := st.nextLinkId + 1 })
  | _, _, _ => (none, os)

/-- One recorded call to osinfo_os_add_device with valid arguments. -/
structure AddCall where
  platform : Option Platform
  dev : Device

def toGArg : Option Platform → GArg Platform
  | none => .null
  | some p => .valid p

/-- Run a list of add_device calls from a state, returning the final state
and the list of links the calls returned, in call order. -/
def runAdds : OsState → List AddCall → OsState × List DeviceLink
  | st, [] => (st, [])
  | st, c :: cs =>
      match osinfo_os_add_device (.valid st) (toGArg c.platform) (.valid c.dev) with
      | (some l, .valid st2) =>
          let r := runAdds st2 cs
          (r.1, l :: r.2)
      | _ => (st, [])

/-- A run of osinfo_os_add_device calls with valid arguments, starting from
a given state; yields the final state and the created links in call order. -/
def runState (calls : List AddCall) : OsState := (runAdds emptyOs calls).1

/-- A state the index can actually be in: reachable from the freshly
initialised index by add_device calls (the only mutator). -/
def Reachable (st : OsState) : Prop := ∃ calls, runState calls = st

/-- Every stored link was allocated before the current allocation counter. -/
def linksBounded (st : OsState) : Prop :=
  (∀ l ∈ st.deviceLinks, l.linkId < st.nextLinkId) ∧
  ∀ kv ∈ st.platforms, ∀ l ∈ kv.2, l.linkId < st.nextLinkId

/-- The platforms table binds each key at most once. -/
def keysNodup (st : OsState) : Prop := (st.platforms.map Prod.fst).Nodup

/-- The default list and the per-platform lists are pairwise disjoint. -/
def seqsDisjoint (st : OsState) : Prop :=
  (∀ l ∈ st.deviceLinks, ∀ kv ∈ st.platforms, l ∉ kv.2) ∧
  ∀ kv1 ∈ st.platforms, ∀ kv2 ∈ st.platforms, kv1.1 ≠ kv2.1 → ∀ l ∈ kv1.2, l ∉ kv2.2

def IndexInv (st : OsState) : Prop := linksBounded st ∧ keysNodup st ∧ seqsDisjoint st

/-- The link is stored somewhere in the index: in the default list or in
some entry of the platforms table. -/
def inIndex (st : OsState) (l : DeviceLink) : Prop :=
  l ∈ st.deviceLinks ∨ ∃ kv ∈ st.platforms, l ∈ kv.2

/-! ### Small GArg evaluation lemmas -/

theorem isNullOrValid_null {α : Type} : (GArg.null : GArg α).isNullOrValid = true := rfl

theorem isNullOrValid_valid {α : Type} (a : α) : (GArg.valid a).isNullOrValid = true := rfl

theorem isValid_valid {α : Type} (a : α) : (GArg.valid a).isValid = true := rfl

/-! ### Hash table lemmas -/

theorem htLookup_htInsert_self (m : List (String × List DeviceLink)) (k : String)
    (v : List DeviceLink) : htLookup (htInsert m k v) k = some v := by
  induction m with
  | nil => simp [htInsert, htLookup]
  | cons hd tl ih =>
      obtain ⟨k1, w⟩ := hd
      by_cases h : k1 = k
      · simp [htInsert, htLookup, h]
      · simp [htInsert, htLookup, h, ih]

theorem htLookup_htInsert_ne (m : List (String × List DeviceLink)) (k k2 : String)
    (v : List DeviceLink) (h : k2 ≠ k) : htLookup (htInsert m k v) k2 = htLookup m k2 := by
  induction m with
  | nil => simp [htInsert, htLookup, Ne.symm h]
  | cons hd tl ih =>
      obtain ⟨k1, w⟩ := hd
      by_cases h1 : k1 = k
      · subst h1
        simp [htInsert, htLookup, Ne.symm h]
      · simp [htInsert, htLookup, h1, ih]

theorem htLookup_htRemove_ne (m : List (String × List DeviceLink)) (k k2 : String)
    (h : k2 ≠ k) : htLookup (htRemove m k) k2 = htLookup m k2 := by
  induction m with
  | nil => simp [htRemove]
  | cons hd tl ih =>
      obtain ⟨k1, w⟩ := hd
      by_cases h1 : k1 = k
      · subst h1
        simp [htRemove, htLookup, Ne.symm h]
      · simp [htRemove, htLookup, h1, ih]

theorem mem_htInsert (m : List (String × List DeviceLink)) (k : String)
    (v : List DeviceLink) (kv : String × List DeviceLink) (h : kv ∈ htInsert m k v) :
    kv = (k, v) ∨ kv ∈ m := by
  induction m with
  | nil => simpa [htInsert] using h
  | cons hd tl ih =>
      obtain ⟨k1, w⟩ := hd
      by_cases h1 : k1 = k
      · simp only [htInsert, if_pos h1, List.mem_cons] at h
        rcases h with h | h
        · exact Or.inl h
        · exact Or.inr (List.mem_cons_of_mem _ h)
      · simp only [htInsert, if_neg h1, List.mem_cons] at h
        rcases h with h | h
        · exact Or.inr (by simp [h])
        · rcases ih h with h2 | h2
          · exact Or.inl h2
          · exact Or.inr (List.mem_cons_of_mem _ h2)

theorem mem_htRemove (m : List (String × List DeviceLink)) (k : String)
    (kv : String × List DeviceLink) (h : kv ∈ htRemove m k) : kv ∈ m := by
  induction m with
  | nil => simp [htRemove] at h
  | cons hd tl ih =>
      obtain ⟨k1, w⟩ := hd
      by_cases h1 : k1 = k
      · simp only [htRemove, if_pos h1] at h
        exact List.mem_cons_of_mem _ h
      · simp only [htRemove, if_neg h1, List.mem_cons] at h
        rcases h with h | h
        · simp [h]
        · exact List.mem_cons_of_mem _ (ih h)

theorem htLookup_mem (m : List (String × List DeviceLink)) (k : String)
    (v : List DeviceLink) (h : htLookup m k = some v) : (k, v) ∈ m := by
  induction m with
  | nil => simp [htLookup] at h
  | cons hd tl ih =>
      obtain ⟨k1, w⟩ := hd
      by_cases h1 : k1 = k
      · subst h1
        simp only [htLookup, eq_self_iff_true, if_true, Option.some.injEq] at h
        simp [h]
      · simp only [htLookup, if_neg h1] at h
        exact List.mem_cons_of_mem _ (ih h)

/-! ### Query loop lemmas -/

theorem linksLoop_eq_filter (fl : GArg OsinfoFilter) (seq : List DeviceLink) :
    linksLoop fl seq = List.filter (fun l => filterPasses fl (Entity.link l)) seq := by
  induction seq with
  | nil => rfl
  | cons hd tl ih =>
      by_cases h : filterPasses fl (Entity.link hd) = true
      · simp [linksLoop, List.filter, h, ih]
      · simp only [Bool.not_eq_true] at h
        simp [linksLoop, List.filter, h, ih]

theorem devicesLoop_eq_filter_map (fl : GArg OsinfoFilter) (seq : List DeviceLink) :
    devicesLoop fl seq = List.map (fun l => l.target)
      (List.filter (fun l => filterPasses fl (Entity.dev l.target)) seq) := by
  induction seq with
  | nil => rfl
  | cons hd tl ih =>
      by_cases h : filterPasses fl (Entity.dev hd.target) = true
      · simp [devicesLoop, List.filter, h, ih]
      · simp only [Bool.not_eq_true] at h
        simp [devicesLoop, List.filter, h, ih]

theorem devicesLoop_null (seq : List DeviceLink) :
    devicesLoop .null seq = List.map (fun l => l.target) seq := by
  rw [devicesLoop_eq_filter_map]
  simp [filterPasses]

theorem prefLoop_eq_none_iff (fl : GArg OsinfoFilter) (seq : List DeviceLink) :
    prefLoop fl seq = none ↔
      ∀ l ∈ seq, filterPasses fl (Entity.dev l.target) = false := by
  induction seq with
  | nil => simp [prefLoop]
  | cons hd tl ih =>
      by_cases h : filterPasses fl (Entity.dev hd.target) = true
      · simp [prefLoop, h]
      · simp only [Bool.not_eq_true] at h
        simp [prefLoop, h, ih]

theorem prefLoop_eq_some_iff (fl : GArg OsinfoFilter) (seq : List DeviceLink)
    (l : DeviceLink) :
    prefLoop fl seq = some l ↔
      ∃ s1 s2, seq = s1 ++ l :: s2 ∧ filterPasses fl (Entity.dev l.target) = true ∧
        ∀ l1 ∈ s1, filterPasses fl (Entity.dev l1.target) = false := by
  induction seq with
  | nil =>
      constructor
      · intro h
        simp [prefLoop] at h
      · rintro ⟨s1, s2, h, -, -⟩
        cases s1 <;> simp at h
  | cons hd tl ih =>
      by_cases h : filterPasses fl (Entity.dev hd.target) = true
      · simp only [prefLoop, if_pos h]
        constructor
        · intro he
          injection he with he
          exact ⟨[], tl, by simp [he], he ▸ h, by simp⟩
        · rintro ⟨s1, s2, hseq, hpass, hfail⟩
          cases s1 with
          | nil =>
              simp only [List.nil_append, List.cons.injEq] at hseq
              simp [hseq.1]
          | cons a s1tl =>
              simp only [List.cons_append, List.cons.injEq] at hseq
              exact absurd (hseq.1 ▸ h) (by simp [hfail a (by simp)])
      · simp only [Bool.not_eq_true] at h
        have hstep : prefLoop fl (hd :: tl) = prefLoop fl tl := by
          simp [prefLoop, h]
        rw [hstep, ih]
        constructor
        · rintro ⟨s1, s2, hseq, hpass, hfail⟩
          refine ⟨hd :: s1, s2, by simp [hseq], hpass, ?_⟩
          intro l1 hl1
          rcases List.mem_cons.mp hl1 with h1 | h1
          · simpa [h1] using h
          · exact hfail l1 h1
        · rintro ⟨s1, s2, hseq, hpass, hfail⟩
          cases s1 with
          | nil =>
              simp only [List.nil_append, List.cons.injEq] at hseq
              rw [hseq.1] at h
              rw [h] at hpass
              cases hpass
          | cons a s1tl =>
              simp only [List.cons_append, List.cons.injEq] at hseq
              exact ⟨s1tl, s2, hseq.2, hpass, fun l1 hl1 => hfail l1 (by simp [hl1])⟩

/-! ### add_device unfolding -/

theorem add_device_default_eq (st : OsState) (d : Device) :
    osinfo_os_add_device (.valid st) .null (.valid d) =
      (some ⟨st.nextLinkId, d⟩,
       .valid { st with deviceLinks := st.deviceLinks ++ [⟨st.nextLinkId, d⟩],
                        nextLinkId := st.nextLinkId + 1 }) := rfl

theorem add_device_platform_eq (st : OsState) (p : Platform) (d : Device) :
    osinfo_os_add_device (.valid st) (.valid p) (.valid d) =
      (some ⟨st.nextLinkId, d⟩,
       .valid { st with
                  platforms := htInsert (htRemove st.platforms p.plId) p.plId
                    (((htLookup st.platforms p.plId).getD []) ++ [⟨st.nextLinkId, d⟩]),
                  nextLinkId := st.nextLinkId + 1 }) := rfl

theorem key_not_mem_htRemove (m : List (String × List DeviceLink)) (k : String)
    (hnd : (m.map Prod.fst).Nodup) : k ∉ (htRemove m k).map Prod.fst := by
  induction m with
  | nil => simp [htRemove]
  | cons hd tl ih =>
      obtain ⟨k1, w⟩ := hd
      simp only [List.map_cons, List.nodup_cons] at hnd
      by_cases h1 : k1 = k
      · subst h1
        simpa [htRemove] using hnd.1
      · simp only [htRemove, if_neg h1, List.map_cons, List.mem_cons]
        rintro (h | h)
        · exact h1 h.symm
        · exact ih hnd.2 h

theorem htRemove_keys_sublist (m : List (String × List DeviceLink)) (k : String) :
    ((htRemove m k).map Prod.fst).Sublist (m.map Prod.fst) := by
  induction m with
  | nil => simp [htRemove]
  | cons hd tl ih =>
      obtain ⟨k1, w⟩ := hd
      by_cases h1 : k1 = k
      · simp only [htRemove, if_pos h1, List.map_cons]
        exact List.sublist_cons_of_sublist _ (List.Sublist.refl _)
      · simp only [htRemove, if_neg h1, List.map_cons]
        exact List.Sublist.cons₂ _ ih

theorem htInsert_of_key_not_mem (m : List (String × List DeviceLink)) (k : String)
    (v : List DeviceLink) (h : k ∉ m.map Prod.fst) : htInsert m k v = m ++ [(k, v)] := by
  induction m with
  | nil => simp [htInsert]
  | cons hd tl ih =>
      obtain ⟨k1, w⟩ := hd
      simp only [List.map_cons, List.mem_cons] at h
      push_neg at h
      have hne : k1 ≠ k := fun he => h.1 he.symm
      simp only [htInsert, if_neg hne, List.cons_append, List.cons.injEq, true_and]
      exact ih h.2

/-- The net effect of the steal and reinsert sequence on a table with
distinct keys: the binding of the key moves to the end with the new value. -/
theorem steal_insert_eq_append (m : List (String × List DeviceLink)) (k : String)
    (v : List DeviceLink) (hnd : (m.map Prod.fst).Nodup) :
    htInsert (htRemove m k) k v = htRemove m k ++ [(k, v)] :=
  htInsert_of_key_not_mem _ _ _ (key_not_mem_htRemove m k hnd)

/-! ### Reachable states and their invariants -/

theorem inv_emptyOs : IndexInv emptyOs := by
  refine ⟨⟨?_, ?_⟩, ?_, ?_, ?_⟩ <;> simp [emptyOs, keysNodup]

theorem inv_step_default (st : OsState) (d : Device) (hinv : IndexInv st) :
    IndexInv { st with
                 deviceLinks := st.deviceLinks ++ [⟨st.nextLinkId, d⟩],
                 nextLinkId := st.nextLinkId + 1 } := by
  obtain ⟨⟨hb1, hb2⟩, hk, hd1, hd2⟩ := hinv
  refine ⟨⟨?_, ?_⟩, hk, ?_, ?_⟩
  · intro l hl
    simp only [List.mem_append, List.mem_singleton] at hl
    rcases hl with hl | hl
    · exact Nat.lt_succ_of_lt (hb1 l hl)
    · simp [hl]
  · intro kv hkv l hl
    exact Nat.lt_succ_of_lt (hb2 kv hkv l hl)
  · intro l hl kv hkv
    simp only [List.mem_append, List.mem_singleton] at hl
    rcases hl with hl | hl
    · exact hd1 l hl kv hkv
    · intro hmem
      exact absurd (hb2 kv hkv l (hl ▸ hmem)) (by simp [hl])
  · exact hd2

theorem inv_step_platform (st : OsState) (p : Platform) (d : Device) (hinv : IndexInv st) :
    IndexInv { st with
                 platforms := htInsert (htRemove st.platforms p.plId) p.plId
                   (((htLookup st.platforms p.plId).getD []) ++ [⟨st.nextLinkId, d⟩]),
                 nextLinkId := st.nextLinkId + 1 } := by
  obtain ⟨⟨hb1, hb2⟩, hk, hd1, hd2⟩ := hinv
  have hrw := steal_insert_eq_append st.platforms p.plId
    (((htLookup st.platforms p.plId).getD []) ++ [⟨st.nextLinkId, d⟩]) hk
  have horig : ∀ l ∈ (htLookup st.platforms p.plId).getD [], ∃ kv ∈ st.platforms,
      kv.1 = p.plId ∧ l ∈ kv.2 := by
    intro l hl
    cases hlk : htLookup st.platforms p.plId with
    | none => rw [hlk] at hl; simp at hl
    | some v =>
        rw [hlk] at hl
        exact ⟨(p.plId, v), htLookup_mem _ _ _ hlk, rfl, hl⟩
  have hmem2 : ∀ kv : String × List DeviceLink,
      kv ∈ htInsert (htRemove st.platforms p.plId) p.plId
        (((htLookup st.platforms p.plId).getD []) ++ [⟨st.nextLinkId, d⟩]) →
      kv ∈ htRemove st.platforms p.plId ∨
        kv = (p.plId, ((htLookup st.platforms p.plId).getD []) ++ [⟨st.nextLinkId, d⟩]) := by
    intro kv hkv
    rcases mem_htInsert _ _ _ _ hkv with h | h
    · exact Or.inr h
    · exact Or.inl h
  refine ⟨⟨?_, ?_⟩, ?_, ?_, ?_⟩
  · intro l hl
    exact Nat.lt_succ_of_lt (hb1 l hl)
  · intro kv hkv l hl
    rcases hmem2 kv hkv with h | h
    · exact Nat.lt_succ_of_lt (hb2 kv (mem_htRemove _ _ _ h) l hl)
    · rw [h] at hl
      simp only [List.mem_append, List.mem_singleton] at hl
      rcases hl with hl | hl
      · obtain ⟨kv2, hkv2, -, hlkv2⟩ := horig l hl
        exact Nat.lt_succ_of_lt (hb2 kv2 hkv2 l hlkv2)
      · simp [hl]
  · show (_ : List _).Nodup
    rw [hrw]
    simp only [List.map_append, List.map_cons, List.map_nil]
    rw [List.nodup_append]
    refine ⟨(htRemove_keys_sublist st.platforms p.plId).nodup hk, List.nodup_singleton _, ?_⟩
    intro a ha hb
    simp only [List.mem_singleton] at hb
    subst hb
    exact key_not_mem_htRemove st.platforms p.plId hk ha
  · intro l hl kv hkv
    rcases hmem2 kv hkv with h | h
    · exact hd1 l hl kv (mem_htRemove _ _ _ h)
    · rw [h]
      simp only [List.mem_append, List.mem_singleton]
      rintro (hm | hm)
      · obtain ⟨kv2, hkv2, -, hlkv2⟩ := horig l hm
        exact hd1 l hl kv2 hkv2 hlkv2
      · exact absurd (hb1 l hl) (by simp [hm])
  · intro kv1 hkv1 kv2 hkv2 hne l hl
    rcases hmem2 kv1 hkv1 with h1 | h1 <;> rcases hmem2 kv2 hkv2 with h2 | h2
    · exact hd2 kv1 (mem_htRemove _ _ _ h1) kv2 (mem_htRemove _ _ _ h2) hne l hl
    · rw [h2]
      simp only [List.mem_append, List.mem_singleton]
      rintro (hm | hm)
      · obtain ⟨kv3, hkv3, hk3, hlkv3⟩ := horig l hm
        have hne13 : kv1.1 ≠ kv3.1 := by
          rw [hk3]
          rw [h2] at hne
          exact hne
        exact hd2 kv1 (mem_htRemove _ _ _ h1) kv3 hkv3 hne13 l hl hlkv3
      · have := hb2 kv1 (mem_htRemove _ _ _ h1) l hl
        rw [hm] at this
        simp at this
    · rw [h1] at hl
      simp only [List.mem_append, List.mem_singleton] at hl
      rcases hl with hm | hm
      · obtain ⟨kv3, hkv3, hk3, hlkv3⟩ := horig l hm
        have hne32 : kv3.1 ≠ kv2.1 := by
          rw [hk3]
          rw [h1] at hne
          exact hne
        exact hd2 kv3 hkv3 kv2 (mem_htRemove _ _ _ h2) hne32 l hlkv3
      · intro hmem
        have := hb2 kv2 (mem_htRemove _ _ _ h2) l hmem
        rw [hm] at this
        simp at this
    · rw [h1, h2] at hne
      simp at hne

/-! ### Runs of add_device calls -/

theorem runAdds_cons_default (st : OsState) (d : Device) (cs : List AddCall) :
    runAdds st ({ platform := none, dev := d } :: cs) =
      ((runAdds { st with
                    deviceLinks := st.deviceLinks ++ [⟨st.nextLinkId, d⟩],
                    nextLinkId := st.nextLinkId + 1 } cs).1,
       ⟨st.nextLinkId, d⟩ ::
         (runAdds { st with
                      deviceLinks := st.deviceLinks ++ [⟨st.nextLinkId, d⟩],
                      nextLinkId := st.nextLinkId + 1 } cs).2) := rfl

theorem runAdds_cons_platform (st : OsState) (p : Platform) (d : Device)
    (cs : List AddCall) :
    runAdds st ({ platform := some p, dev := d } :: cs) =
      ((runAdds { st with
                    platforms := htInsert (htRemove st.platforms p.plId) p.plId
                      (((htLookup st.platforms p.plId).getD []) ++ [⟨st.nextLinkId, d⟩]),
                    nextLinkId := st.nextLinkId + 1 } cs).1,
       ⟨st.nextLinkId, d⟩ ::
         (runAdds { st with
                      platforms := htInsert (htRemove st.platforms p.plId) p.plId
                        (((htLookup st.platforms p.plId).getD []) ++ [⟨st.nextLinkId, d⟩]),
                      nextLinkId := st.nextLinkId + 1 } cs).2) := rfl

theorem runAdds_inv (calls : List AddCall) :
    ∀ st : OsState, IndexInv st → IndexInv (runAdds st calls).1 := by
  induction calls with
  | nil => intro st h; exact h
  | cons c cs ih =>
      intro st h
      obtain ⟨op, d⟩ := c
      cases op with
      | none =>
          rw [runAdds_cons_default]
          exact ih _ (inv_step_default st d h)
      | some p =>
          rw [runAdds_cons_platform]
          exact ih _ (inv_step_platform st p d h)

theorem reachable_inv (st : OsState) (h : Reachable st) : IndexInv st := by
  obtain ⟨calls, hc⟩ := h
  rw [← hc]
  exact runAdds_inv calls emptyOs inv_emptyOs

theorem runAdds_platforms_nonempty (calls : List AddCall) :
    ∀ st : OsState, (∀ kv ∈ st.platforms, kv.2 ≠ []) →
      ∀ kv ∈ (runAdds st calls).1.platforms, kv.2 ≠ [] := by
  induction calls with
  | nil => intro st h; exact h
  | cons c cs ih =>
      intro st h
      obtain ⟨op, d⟩ := c
      cases op with
      | none =>
          rw [runAdds_cons_default]
          exact ih _ h
      | some p =>
          rw [runAdds_cons_platform]
          refine ih _ ?_
          intro kv hkv
          rcases mem_htInsert _ _ _ _ hkv with h1 | h1
          · rw [h1]
            simp
          · exact h kv (mem_htRemove _ _ _ h1)

theorem inIndex_step_default (st : OsState) (d : Device) (l : DeviceLink)
    (h : inIndex { st with
                     deviceLinks := st.deviceLinks ++ [⟨st.nextLinkId, d⟩],
                     nextLinkId := st.nextLinkId + 1 } l) :
    inIndex st l ∨ l = ⟨st.nextLinkId, d⟩ := by
  rcases h with h | h
  · simp only [List.mem_append, List.mem_singleton] at h
    rcases h with h | h
    · exact Or.inl (Or.inl h)
    · exact Or.inr h
  · exact Or.inl (Or.inr h)

theorem inIndex_step_platform (st : OsState) (p : Platform) (d : Device) (l : DeviceLink)
    (h : inIndex { st with
                     platforms := htInsert (htRemove st.platforms p.plId) p.plId
                       (((htLookup st.platforms p.plId).getD []) ++ [⟨st.nextLinkId, d⟩]),
                     nextLinkId := st.nextLinkId + 1 } l) :
    inIndex st l ∨ l = ⟨st.nextLinkId, d⟩ := by
  rcases h with h | h
  · exact Or.inl (Or.inl h)
  · obtain ⟨kv, hkv, hl⟩ := h
    rcases mem_htInsert _ _ _ _ hkv with h1 | h1
    · rw [h1] at hl
      simp only [List.mem_append, List.mem_singleton] at hl
      rcases hl with hl | hl
      · cases hlk : htLookup st.platforms p.plId with
        | none => rw [hlk] at hl; simp at hl
        | some v =>
            rw [hlk] at hl
            exact Or.inl (Or.inr ⟨(p.plId, v), htLookup_mem _ _ _ hlk, hl⟩)
      · exact Or.inr hl
    · exact Or.inl (Or.inr ⟨kv, mem_htRemove _ _ _ h1, hl⟩)

theorem runAdds_inIndex (calls : List AddCall) :
    ∀ (st : OsState) (l : DeviceLink), inIndex (runAdds st calls).1 l →
      inIndex st l ∨ l ∈ (runAdds st calls).2 := by
  induction calls with
  | nil => intro st l h; exact Or.inl h
  | cons c cs ih =>
      intro st l h
      obtain ⟨op, d⟩ := c
      cases op with
      | none =>
          rw [runAdds_cons_default] at h ⊢
          rcases ih _ l h with h1 | h1
          · rcases inIndex_step_default st d l h1 with h2 | h2
            · exact Or.inl h2
            · exact Or.inr (by simp [h2])
          · exact Or.inr (by simp [h1])
      | some p =>
          rw [runAdds_cons_platform] at h ⊢
          rcases ih _ l h with h1 | h1
          · rcases inIndex_step_platform st p d l h1 with h2 | h2
            · exact Or.inl h2
            · exact Or.inr (by simp [h2])
          · exact Or.inr (by simp [h1])

theorem mem_selectSeq_inIndex (st : OsState) (platform : GArg Platform) (l : DeviceLink)
    (h : l ∈ selectSeq st platform) : inIndex st l := by
  cases platform with
  | null => exact Or.inl h
  | invalid => exact Or.inl h
  | valid p =>
      simp only [selectSeq] at h
      cases hlk : htLookup st.platforms p.plId with
      | none => rw [hlk] at h; simp at h
      | some v =>
          rw [hlk] at h
          exact Or.inr ⟨(p.plId, v), htLookup_mem _ _ _ hlk, h⟩

/-! ### Claim theorems -/

/-- C1: the spec states that the filter argument of QueryPreferred
(osinfo_os_get_preferred_device_link) and QueryPreferredDevice
(osinfo_os_get_preferred_device) is optional, an absent filter letting every
association pass so that the first association (resp. its target device) of
the selected sequence is returned. The code instead rejects a NULL filter in
its precondition check, OSINFO_IS_FILTER(filter), and returns NULL even when
the selected sequence is non-empty, contradicting the functions own
allow-none documentation and the NULL-filter test kept inside their loop:
on a state whose default sequence holds one association, both calls with an
absent platform and an absent filter return NULL, while the loop body alone
would have returned that first association. -/
theorem C1_preferred_null_filter_bug :
    osinfo_os_get_preferred_device_link
        (.valid { deviceLinks := [{ linkId := 0, target := { devId := 0 } }],
                  platforms := [], nextLinkId := 1 }) .null .null = none ∧
    osinfo_os_get_preferred_device
        (.valid { deviceLinks := [{ linkId := 0, target := { devId := 0 } }],
                  platforms := [], nextLinkId := 1 }) .null .null = none ∧
    ({ deviceLinks := [{ linkId := 0, target := { devId := 0 } }],
       platforms := [], nextLinkId := 1 } : OsState).deviceLinks ≠ [] ∧
    prefLoop .null [{ linkId := 0, target := { devId := 0 } }] =
      some { linkId := 0, target := { devId := 0 } } := by
  refine ⟨rfl, rfl, by simp, rfl⟩

/-- C2: osinfo_os_add_device is additive on the per-platform mapping: when
the platform key already has a sequence, the new association is appended at
its end, every prior entry and their order are preserved, other keys and the
default list are untouched; and the AddDevice(p, d1); AddDevice(p, d2);
Query(p, no filter) scenario returns [d1, d2]. -/
theorem C2_add_device_appends :
    (∀ (st : OsState) (p : Platform) (d : Device) (s : List DeviceLink),
       htLookup st.platforms p.plId = some s →
       ∃ st2 : OsState,
         (osinfo_os_add_device (.valid st) (.valid p) (.valid d)).2 = .valid st2 ∧
         htLookup st2.platforms p.plId = some (s ++ [⟨st.nextLinkId, d⟩]) ∧
         (∀ k : String, k ≠ p.plId → htLookup st2.platforms k = htLookup st.platforms k) ∧
         st2.deviceLinks = st.deviceLinks) ∧
    ∀ (p : Platform) (d1 d2 : Device),
      osinfo_os_get_devices
          (osinfo_os_add_device
            ((osinfo_os_add_device (.valid emptyOs) (.valid p) (.valid d1)).2)
            (.valid p) (.valid d2)).2
          (.valid p) .null = some [d1, d2] := by
  constructor
  · intro st p d s hs
    refine ⟨_, rfl, ?_, ?_, rfl⟩
    · show htLookup (htInsert (htRemove st.platforms p.plId) p.plId
        (((htLookup st.platforms p.plId).getD []) ++ [⟨st.nextLinkId, d⟩])) p.plId = _
      rw [htLookup_htInsert_self, hs]
      rfl
    · intro k hk
      show htLookup (htInsert (htRemove st.platforms p.plId) p.plId
        (((htLookup st.platforms p.plId).getD []) ++ [⟨st.nextLinkId, d⟩])) k = _
      rw [htLookup_htInsert_ne _ _ _ _ hk, htLookup_htRemove_ne _ _ _ hk]
  · intro p d1 d2
    simp [osinfo_os_add_device, osinfo_os_get_devices, emptyOs, htInsert, htRemove,
      htLookup, selectSeq, GArg.isNullOrValid, devicesLoop, filterPasses]

/-- Witness for C2 at a concrete state whose table already binds the key. -/
theorem C2_add_device_appends_witness :
    htLookup ({ deviceLinks := [], platforms := [("x", [⟨0, ⟨1⟩⟩])],
                nextLinkId := 1 } : OsState).platforms "x" = some [⟨0, ⟨1⟩⟩] ∧
    ∃ st2 : OsState,
      (osinfo_os_add_device
          (.valid { deviceLinks := [], platforms := [("x", [⟨0, ⟨1⟩⟩])], nextLinkId := 1 })
          (.valid ⟨"x"⟩) (.valid ⟨2⟩)).2 = .valid st2 ∧
      htLookup st2.platforms "x" = some [⟨0, ⟨1⟩⟩, ⟨1, ⟨2⟩⟩] ∧
      (∀ k : String, k ≠ "x" →
        htLookup st2.platforms k =
          htLookup ({ deviceLinks := [], platforms := [("x", [⟨0, ⟨1⟩⟩])],
                      nextLinkId := 1 } : OsState).platforms k) ∧
      st2.deviceLinks = ({ deviceLinks := [], platforms := [("x", [⟨0, ⟨1⟩⟩])],
                           nextLinkId := 1 } : OsState).deviceLinks :=
  ⟨by decide, C2_add_device_appends.1 _ ⟨"x"⟩ ⟨2⟩ [⟨0, ⟨1⟩⟩] (by decide)⟩

/-- C3: with a valid filter, QueryPreferred walks the selected sequence in
insertion order evaluating the filter on each target device; it returns none
exactly when no stored device matches (in particular on an empty sequence),
and returns some l exactly when l is the earliest association whose device
matches: everything before l in the sequence fails the filter. -/
theorem C3_preferred_first_match (st : OsState) (platform : GArg Platform)
    (f : OsinfoFilter) (hpl : platform.isNullOrValid = true) :
    (osinfo_os_get_preferred_device_link (.valid st) platform (.valid f) = none ↔
       ∀ l ∈ selectSeq st platform, f (Entity.dev l.target) = false) ∧
    ∀ l : DeviceLink,
      osinfo_os_get_preferred_device_link (.valid st) platform (.valid f) = some l ↔
        ∃ s1 s2, selectSeq st platform = s1 ++ l :: s2 ∧
          f (Entity.dev l.target) = true ∧
          ∀ l1 ∈ s1, f (Entity.dev l1.target) = false := by
  have hred : osinfo_os_get_preferred_device_link (.valid st) platform (.valid f) =
      prefLoop (.valid f) (selectSeq st platform) := by
    simp [osinfo_os_get_preferred_device_link, hpl, GArg.isValid]
  rw [hred]
  constructor
  · rw [prefLoop_eq_none_iff]
    simp [filterPasses]
  · intro l
    rw [prefLoop_eq_some_iff]
    simp [filterPasses]

/-- Witness for C3: three default associations, the filter matching the
devices of the last two; the preferred link is the middle (earliest
matching) one. -/
theorem C3_preferred_first_match_witness :
    (osinfo_os_get_preferred_device_link
        (.valid { deviceLinks := [⟨0, ⟨1⟩⟩, ⟨1, ⟨2⟩⟩, ⟨2, ⟨2⟩⟩],
                  platforms := [], nextLinkId := 3 }) .null
        (.valid fun e => match e with
          | Entity.dev d => d.devId == 2
          | Entity.link _ => false) = none ↔
       ∀ l ∈ selectSeq { deviceLinks := [⟨0, ⟨1⟩⟩, ⟨1, ⟨2⟩⟩, ⟨2, ⟨2⟩⟩],
                         platforms := [], nextLinkId := 3 } .null,
         (fun e => match e with
           | Entity.dev d => d.devId == 2
           | Entity.link _ => false : OsinfoFilter) (Entity.dev l.target) = false) ∧
    ∀ l : DeviceLink,
      osinfo_os_get_preferred_device_link
          (.valid { deviceLinks := [⟨0, ⟨1⟩⟩, ⟨1, ⟨2⟩⟩, ⟨2, ⟨2⟩⟩],
                    platforms := [], nextLinkId := 3 }) .null
          (.valid fun e => match e with
            | Entity.dev d => d.devId == 2
            | Entity.link _ => false) = some l ↔
        ∃ s1 s2, selectSeq { deviceLinks := [⟨0, ⟨1⟩⟩, ⟨1, ⟨2⟩⟩, ⟨2, ⟨2⟩⟩],
                             platforms := [], nextLinkId := 3 } .null = s1 ++ l :: s2 ∧
          (fun e => match e with
            | Entity.dev d => d.devId == 2
            | Entity.link _ => false : OsinfoFilter) (Entity.dev l.target) = true ∧
          ∀ l1 ∈ s1,
            (fun e => match e with
              | Entity.dev d => d.devId == 2
              | Entity.link _ => false : OsinfoFilter) (Entity.dev l1.target) = false :=
  C3_preferred_first_match _ .null _ rfl

/-- Targets stored by a run of default adds, in order. -/
theorem runAdds_default_targets (ds : List Device) :
    ∀ st : OsState,
      (runAdds st (ds.map fun d => { platform := none, dev := d })).1.deviceLinks.map
          (fun l => l.target) =
        st.deviceLinks.map (fun l => l.target) ++ ds := by
  induction ds with
  | nil => intro st; simp [runAdds]
  | cons d ds ih =>
      intro st
      simp only [List.map_cons]
      rw [runAdds_cons_default, ih]
      simp

/-- C4: adding devices with no platform to a fresh index and then querying
with no platform and no filter returns exactly the added devices, in call
order, one occurrence per call. -/
theorem C4_insertion_order (ds : List Device) (_hne : ds ≠ []) :
    osinfo_os_get_devices
        (.valid (runAdds emptyOs (ds.map fun d => { platform := none, dev := d })).1)
        .null .null = some ds := by
  have h1 : ∀ st : OsState, osinfo_os_get_devices (.valid st) .null .null =
      some (devicesLoop .null st.deviceLinks) := fun st => rfl
  rw [h1, devicesLoop_null, runAdds_default_targets]
  simp [emptyOs]

/-- Witness for C4 with a duplicated device: both occurrences survive. -/
theorem C4_insertion_order_witness :
    ([⟨1⟩, ⟨1⟩] : List Device) ≠ [] ∧
    osinfo_os_get_devices
        (.valid (runAdds emptyOs (([⟨1⟩, ⟨1⟩] : List Device).map
          fun d => { platform := none, dev := d })).1)
        .null .null = some [⟨1⟩, ⟨1⟩] :=
  ⟨by decide, C4_insertion_order [⟨1⟩, ⟨1⟩] (by decide)⟩

/-- C5 counterexample: the claim reads, for every index state, AddDevice
(platformA, d) followed by Query(platformB, no filter) with distinct
platforms returns a result excluding d. From the reachable state built by
AddDevice(B, device 5), calling AddDevice(A, device 5) and then querying
platform B returns a list that still contains device 5. -/
theorem C5_counterexample :
    Reachable (runAdds emptyOs [{ platform := some ⟨"B"⟩, dev := ⟨5⟩ }]).1 ∧
    (⟨"A"⟩ : Platform) ≠ ⟨"B"⟩ ∧
    osinfo_os_get_devices
        (osinfo_os_add_device
          (.valid (runAdds emptyOs [{ platform := some ⟨"B"⟩, dev := ⟨5⟩ }]).1)
          (.valid ⟨"A"⟩) (.valid ⟨5⟩)).2
        (.valid ⟨"B"⟩) .null = some [⟨5⟩] ∧
    (⟨5⟩ : Device) ∈ [(⟨5⟩ : Device)] :=
  ⟨⟨[{ platform := some ⟨"B"⟩, dev := ⟨5⟩ }], rfl⟩, by decide, by decide, by decide⟩

/-- C5 (amended): in every reachable state the default sequence and the
per-platform sequences are pairwise disjoint; an association created by
add_device under a platform never lands in the default sequence nor under
any other key, one created without a platform never lands under any key,
and adding under platformA leaves Query(platformB, no filter) for a
distinct platformB unchanged, hence excluding d whenever d was not already
recorded under platformB. -/
theorem C5_disjoint_platform_isolation (st : OsState) (hr : Reachable st) :
    ((∀ l ∈ st.deviceLinks, ∀ kv ∈ st.platforms, l ∉ kv.2) ∧
     (∀ kv1 ∈ st.platforms, ∀ kv2 ∈ st.platforms, kv1.1 ≠ kv2.1 →
        ∀ l ∈ kv1.2, l ∉ kv2.2)) ∧
    (∀ (pA : Platform) (d : Device),
      ∃ st2 : OsState,
        (osinfo_os_add_device (.valid st) (.valid pA) (.valid d)).2 = .valid st2 ∧
        (⟨st.nextLinkId, d⟩ : DeviceLink) ∉ st2.deviceLinks ∧
        (∀ kv ∈ st2.platforms, kv.1 ≠ pA.plId →
           (⟨st.nextLinkId, d⟩ : DeviceLink) ∉ kv.2) ∧
        (∀ pB : Platform, pA ≠ pB →
          osinfo_os_get_devices (.valid st2) (.valid pB) .null =
            osinfo_os_get_devices (.valid st) (.valid pB) .null ∧
          ∀ res res2 : List Device,
            osinfo_os_get_devices (.valid st) (.valid pB) .null = some res →
            osinfo_os_get_devices (.valid st2) (.valid pB) .null = some res2 →
            d ∉ res → d ∉ res2)) ∧
    (∀ d : Device,
      ∃ st2 : OsState,
        (osinfo_os_add_device (.valid st) .null (.valid d)).2 = .valid st2 ∧
        ∀ kv ∈ st2.platforms, (⟨st.nextLinkId, d⟩ : DeviceLink) ∉ kv.2) := by
  obtain ⟨⟨hb1, hb2⟩, hk, hd1, hd2⟩ := reachable_inv st hr
  refine ⟨⟨hd1, hd2⟩, ?_, ?_⟩
  · intro pA d
    refine ⟨_, rfl, ?_, ?_, ?_⟩
    · intro hmem
      exact absurd (hb1 _ hmem) (by simp)
    · intro kv hkv hkne hmem
      rcases mem_htInsert _ _ _ _ hkv with h1 | h1
      · exact hkne (by rw [h1])
      · exact absurd (hb2 kv (mem_htRemove _ _ _ h1) _ hmem) (by simp)
    · intro pB hAB
      have hne2 : pB.plId ≠ pA.plId := by
        intro he
        apply hAB
        cases pA
        cases pB
        simp_all
      have hlk : htLookup (htInsert (htRemove st.platforms pA.plId) pA.plId
          (((htLookup st.platforms pA.plId).getD []) ++ [⟨st.nextLinkId, d⟩])) pB.plId =
          htLookup st.platforms pB.plId := by
        rw [htLookup_htInsert_ne _ _ _ _ hne2, htLookup_htRemove_ne _ _ _ hne2]
      have hq : osinfo_os_get_devices
          (.valid { st with
                      platforms := htInsert (htRemove st.platforms pA.plId) pA.plId
                        (((htLookup st.platforms pA.plId).getD []) ++ [⟨st.nextLinkId, d⟩]),
                      nextLinkId := st.nextLinkId + 1 }) (.valid pB) .null =
          osinfo_os_get_devices (.valid st) (.valid pB) .null := by
        simp only [osinfo_os_get_devices, selectSeq, isNullOrValid_valid, isNullOrValid_null,
          Bool.and_self, if_true]
        rw [hlk]
      refine ⟨hq, ?_⟩
      intro res res2 h1 h2 hd3
      rw [hq, h1] at h2
      injection h2 with h2
      rw [← h2]
      exact hd3
  · intro d
    refine ⟨_, rfl, ?_⟩
    intro kv hkv hmem
    exact absurd (hb2 kv hkv _ hmem) (by simp)

/-- Witness for C5 at the reachable empty state. -/
theorem C5_disjoint_platform_isolation_witness :
    ((∀ l ∈ emptyOs.deviceLinks, ∀ kv ∈ emptyOs.platforms, l ∉ kv.2) ∧
     (∀ kv1 ∈ emptyOs.platforms, ∀ kv2 ∈ emptyOs.platforms, kv1.1 ≠ kv2.1 →
        ∀ l ∈ kv1.2, l ∉ kv2.2)) ∧
    (∀ (pA : Platform) (d : Device),
      ∃ st2 : OsState,
        (osinfo_os_add_device (.valid emptyOs) (.valid pA) (.valid d)).2 = .valid st2 ∧
        (⟨emptyOs.nextLinkId, d⟩ : DeviceLink) ∉ st2.deviceLinks ∧
        (∀ kv ∈ st2.platforms, kv.1 ≠ pA.plId →
           (⟨emptyOs.nextLinkId, d⟩ : DeviceLink) ∉ kv.2) ∧
        (∀ pB : Platform, pA ≠ pB →
          osinfo_os_get_devices (.valid st2) (.valid pB) .null =
            osinfo_os_get_devices (.valid emptyOs) (.valid pB) .null ∧
          ∀ res res2 : List Device,
            osinfo_os_get_devices (.valid emptyOs) (.valid pB) .null = some res →
            osinfo_os_get_devices (.valid st2) (.valid pB) .null = some res2 →
            d ∉ res → d ∉ res2)) ∧
    (∀ d : Device,
      ∃ st2 : OsState,
        (osinfo_os_add_device (.valid emptyOs) .null (.valid d)).2 = .valid st2 ∧
        ∀ kv ∈ st2.platforms, (⟨emptyOs.nextLinkId, d⟩ : DeviceLink) ∉ kv.2) :=
  C5_disjoint_platform_isolation emptyOs ⟨[], rfl⟩

/-- C6: querying a platform whose key is absent from the table, or bound to
an empty sequence, yields the non-NULL empty list from Query and QueryLinks
(given a filter passing their precondition) and absent from both preferred
queries, never an error. -/
theorem C6_empty_platform (st : OsState) (p : Platform) (fl : GArg OsinfoFilter)
    (h : htLookup st.platforms p.plId = none ∨ htLookup st.platforms p.plId = some []) :
    (fl.isNullOrValid = true →
       osinfo_os_get_devices (.valid st) (.valid p) fl = some [] ∧
       osinfo_os_get_device_links (.valid st) (.valid p) fl = some []) ∧
    osinfo_os_get_preferred_device_link (.valid st) (.valid p) fl = none ∧
    osinfo_os_get_preferred_device (.valid st) (.valid p) fl = none := by
  have hsel : selectSeq st (.valid p) = [] := by
    rcases h with h | h <;> simp [selectSeq, h]
  refine ⟨fun hfl => ⟨?_, ?_⟩, ?_, ?_⟩
  · simp [osinfo_os_get_devices, isNullOrValid_valid, hfl, hsel, devicesLoop]
  · simp [osinfo_os_get_device_links, isNullOrValid_valid, hfl, hsel, linksLoop]
  · cases fl <;>
      simp [osinfo_os_get_preferred_device_link, GArg.isValid, GArg.isNullOrValid, hsel,
        prefLoop]
  · cases fl <;>
      simp [osinfo_os_get_preferred_device, osinfo_os_get_preferred_device_link,
        GArg.isValid, GArg.isNullOrValid, hsel, prefLoop]

/-- Witness for C6 on a never-seen platform of the fresh index. -/
theorem C6_empty_platform_witness :
    (GArg.isNullOrValid (GArg.null : GArg OsinfoFilter) = true →
       osinfo_os_get_devices (.valid emptyOs) (.valid ⟨"nope"⟩) .null = some [] ∧
       osinfo_os_get_device_links (.valid emptyOs) (.valid ⟨"nope"⟩) .null = some []) ∧
    osinfo_os_get_preferred_device_link (.valid emptyOs) (.valid ⟨"nope"⟩) .null = none ∧
    osinfo_os_get_preferred_device (.valid emptyOs) (.valid ⟨"nope"⟩) .null = none :=
  C6_empty_platform emptyOs ⟨"nope"⟩ .null (Or.inl rfl)

/-- C7: QueryLinks selects and traverses the same sequence as Query, but its
predicate is evaluated on the association entity itself, not on the target
device, and its result is the sublist of matching associations in insertion
order, while Query returns the target devices of the associations whose
device matches, in the same order. -/
theorem C7_links_filter_on_link (st : OsState) (platform : GArg Platform)
    (fl : GArg OsinfoFilter) (hpl : platform.isNullOrValid = true)
    (hfl : fl.isNullOrValid = true) :
    osinfo_os_get_device_links (.valid st) platform fl =
      some (List.filter (fun l => filterPasses fl (Entity.link l))
        (selectSeq st platform)) ∧
    osinfo_os_get_devices (.valid st) platform fl =
      some (List.map (fun l => l.target)
        (List.filter (fun l => filterPasses fl (Entity.dev l.target))
          (selectSeq st platform))) := by
  constructor
  · simp [osinfo_os_get_device_links, hpl, hfl, linksLoop_eq_filter]
  · simp [osinfo_os_get_devices, hpl, hfl, devicesLoop_eq_filter_map]

/-- Witness for C7 with a filter matching by link identity. -/
theorem C7_links_filter_on_link_witness :
    osinfo_os_get_device_links
        (.valid { deviceLinks := [⟨0, ⟨1⟩⟩, ⟨1, ⟨2⟩⟩], platforms := [], nextLinkId := 2 })
        .null
        (.valid fun e => match e with
          | Entity.dev d => d.devId == 1
          | Entity.link l => l.linkId == 1) =
      some (List.filter (fun l => filterPasses
          (.valid fun e => match e with
            | Entity.dev d => d.devId == 1
            | Entity.link l => l.linkId == 1) (Entity.link l))
        (selectSeq { deviceLinks := [⟨0, ⟨1⟩⟩, ⟨1, ⟨2⟩⟩], platforms := [],
                     nextLinkId := 2 } .null)) ∧
    osinfo_os_get_devices
        (.valid { deviceLinks := [⟨0, ⟨1⟩⟩, ⟨1, ⟨2⟩⟩], platforms := [], nextLinkId := 2 })
        .null
        (.valid fun e => match e with
          | Entity.dev d => d.devId == 1
          | Entity.link l => l.linkId == 1) =
      some (List.map (fun l => l.target)
        (List.filter (fun l => filterPasses
            (.valid fun e => match e with
              | Entity.dev d => d.devId == 1
              | Entity.link l => l.linkId == 1) (Entity.dev l.target))
          (selectSeq { deviceLinks := [⟨0, ⟨1⟩⟩, ⟨1, ⟨2⟩⟩], platforms := [],
                       nextLinkId := 2 } .null))) :=
  C7_links_filter_on_link _ .null _ rfl rfl

/-- C8: every association contained in a QueryLinks result over an index
built by add_device calls is one of the link objects those calls returned:
the query hands back the very objects add_device created. -/
theorem C8_roundtrip (calls : List AddCall) (platform : GArg Platform)
    (fl : GArg OsinfoFilter) (res : List DeviceLink)
    (h : osinfo_os_get_device_links (.valid (runAdds emptyOs calls).1) platform fl =
      some res) :
    ∀ l ∈ res, l ∈ (runAdds emptyOs calls).2 := by
  intro l hl
  have hmem : l ∈ selectSeq (runAdds emptyOs calls).1 platform := by
    simp only [osinfo_os_get_device_links] at h
    by_cases hc : (platform.isNullOrValid && fl.isNullOrValid) = true
    · rw [if_pos hc] at h
      injection h with h
      rw [← h, linksLoop_eq_filter] at hl
      exact (List.mem_filter.mp hl).1
    · rw [if_neg hc] at h
      cases h
  rcases runAdds_inIndex calls emptyOs l
      (mem_selectSeq_inIndex _ platform l hmem) with h1 | h1
  · rcases h1 with h1 | h1
    · simp [emptyOs] at h1
    · obtain ⟨kv, hkv, -⟩ := h1
      simp [emptyOs] at hkv
  · exact h1

/-- Witness for C8 on a two-call run queried without platform or filter. -/
theorem C8_roundtrip_witness :
    (⟨0, ⟨1⟩⟩ : DeviceLink) ∈
      (runAdds emptyOs [{ platform := none, dev := ⟨1⟩ },
                        { platform := some ⟨"x"⟩, dev := ⟨2⟩ }]).2 :=
  C8_roundtrip [{ platform := none, dev := ⟨1⟩ }, { platform := some ⟨"x"⟩, dev := ⟨2⟩ }]
    .null .null [⟨0, ⟨1⟩⟩] (by decide) ⟨0, ⟨1⟩⟩ (by decide)

/-- C9: in every state reachable by add_device calls from the fresh index,
every key of the platforms table is bound to a non-empty sequence. -/
theorem C9_platform_keys_nonempty (calls : List AddCall)
    (kv : String × List DeviceLink) (h : kv ∈ (runAdds emptyOs calls).1.platforms) :
    kv.2 ≠ [] :=
  runAdds_platforms_nonempty calls emptyOs (by simp [emptyOs]) kv h

/-- Witness for C9 after one platform-scoped call. -/
theorem C9_platform_keys_nonempty_witness :
    (("x", [(⟨0, ⟨1⟩⟩ : DeviceLink)]) : String × List DeviceLink).2 ≠ [] :=
  C9_platform_keys_nonempty [{ platform := some ⟨"x"⟩, dev := ⟨1⟩ }]
    ("x", [⟨0, ⟨1⟩⟩]) (by decide)

/-- C10: when a precondition fails, add_device returns NULL with the state
untouched, the two list queries return NULL (distinct from the non-NULL
empty list they return on valid arguments, whose result is always some
list), and the two preferred queries return NULL; the preferred queries
additionally fail their check whenever the filter is not a valid filter,
NULL included. -/
theorem C10_precondition_checks :
    (∀ (os : GArg OsState) (pl : GArg Platform) (dev : GArg Device),
       os.isValid = false ∨ pl.isNullOrValid = false ∨ dev.isValid = false →
       osinfo_os_add_device os pl dev = (none, os)) ∧
    (∀ (os : GArg OsState) (pl : GArg Platform) (fl : GArg OsinfoFilter),
       os.isValid = false ∨ pl.isNullOrValid = false ∨ fl.isNullOrValid = false →
       osinfo_os_get_devices os pl fl = none ∧
       osinfo_os_get_device_links os pl fl = none) ∧
    (∀ (os : GArg OsState) (pl : GArg Platform) (fl : GArg OsinfoFilter),
       os.isValid = false ∨ pl.isNullOrValid = false ∨ fl.isValid = false →
       osinfo_os_get_preferred_device_link os pl fl = none ∧
       osinfo_os_get_preferred_device os pl fl = none) ∧
    (∀ (st : OsState) (pl : GArg Platform) (fl : GArg OsinfoFilter),
       pl.isNullOrValid = true → fl.isNullOrValid = true →
       (∃ ds : List Device, osinfo_os_get_devices (.valid st) pl fl = some ds) ∧
       (∃ ls : List DeviceLink, osinfo_os_get_device_links (.valid st) pl fl = some ls)) := by
  refine ⟨?_, ?_, ?_, ?_⟩
  · intro os pl dev h
    cases os <;> cases pl <;> cases dev <;>
      first
        | rfl
        | simp [GArg.isValid, GArg.isNullOrValid] at h
  · intro os pl fl h
    cases os <;> cases pl <;> cases fl <;>
      first
        | exact ⟨rfl, rfl⟩
        | simp [GArg.isValid, GArg.isNullOrValid] at h
  · intro os pl fl h
    cases os <;> cases pl <;> cases fl <;>
      first
        | exact ⟨rfl, rfl⟩
        | simp [GArg.isValid, GArg.isNullOrValid] at h
  · intro st pl fl h1 h2
    exact ⟨⟨devicesLoop fl (selectSeq st pl), by simp [osinfo_os_get_devices, h1, h2]⟩,
           ⟨linksLoop fl (selectSeq st pl), by simp [osinfo_os_get_device_links, h1, h2]⟩⟩

/-- Witness for C10: a NULL os for add_device, a wrongly typed os for the
list queries, a NULL filter for the preferred queries, and the fresh index
for the non-NULL empty results. -/
theorem C10_precondition_checks_witness :
    osinfo_os_add_device .null .null .null = (none, .null) ∧
    (osinfo_os_get_devices .invalid .null .null = none ∧
     osinfo_os_get_device_links .invalid .null .null = none) ∧
    (osinfo_os_get_preferred_device_link (.valid emptyOs) .null .null = none ∧
     osinfo_os_get_preferred_device (.valid emptyOs) .null .null = none) ∧
    ((∃ ds : List Device, osinfo_os_get_devices (.valid emptyOs) .null .null = some ds) ∧
     (∃ ls : List DeviceLink,
        osinfo_os_get_device_links (.valid emptyOs) .null .null = some ls)) :=
  ⟨C10_precondition_checks.1 _ _ _ (Or.inl rfl),
   C10_precondition_checks.2.1 _ _ _ (Or.inl rfl),
   C10_precondition_checks.2.2.1 _ _ _ (Or.inr (Or.inr rfl)),
   C10_precondition_checks.2.2.2 emptyOs _ _ rfl rfl⟩
